import Mathlib

/-!
Verification of the trace pipeline in `src/trace.ts` (saddle repository).

The file shallowly embeds the module: JavaScript strings become `String`
(lists of characters), JS arrays become `List`, JS objects become
association lists where the last binding wins, `null`/`undefined`/value
trichotomy becomes `JsOpt`, and code that can throw returns `Except
TraceError`.  The external collaborators (RPC transport, artifact lookup,
source-map decoder, augmentation) are fields of a `TraceEnv` record, and
`trace` is a pure function of that environment, exactly following the
statement order of the TypeScript source.
-/

namespace Saddle

/-- JavaScript value that may be `null`, `undefined`, or present.
Models the `contractAddress` field of a web3 transaction receipt, whose
type admits all three states. -/
inductive JsOpt (α : Type) where
  | null : JsOpt α
  | undef : JsOpt α
  | val : α → JsOpt α
deriving DecidableEq, Repr

/-- JavaScript `x || d` specialised to strings: `null`, `undefined` and
the empty string are falsy and fall through to the default. -/
def jsOr (x : JsOpt String) (d : String) : String :=
  match x with
  | .val a => if a = "" then d else a
  | _ => d

/-- Read of a JS object property, modelled on an association list where a
later binding shadows an earlier one (object spread semantics); a missing
key is `undefined`, i.e. `none`. -/
def jsGet {α : Type} (obj : List (String × α)) (k : String) : Option α :=
  (obj.reverse.find? (fun p => p.1 == k)).map (fun p => p.2)

/-- `String.split("\n")` of JavaScript: `""` splits to `[""]`, a trailing
newline yields a trailing empty line. Helper recursion on the character
list so the function evaluates inside the kernel. -/
def splitLinesAux : List Char → List Char → List String
  | [], acc => [acc.reverse.asString]
  | c :: rest, acc =>
    if c = '\n' then acc.reverse.asString :: splitLinesAux rest []
    else splitLinesAux rest (c :: acc)

/-- JavaScript `s.split("\n")`. -/
def splitLines (s : String) : List String := splitLinesAux s.data []

/-- JavaScript `s.slice(a, b)` for non-negative indices: the characters in
`[a, b)`, clamped to the string, empty when `a >= b`. -/
def jsSliceStr (s : String) (a b : Nat) : String :=
  ((s.data.take b).drop a).asString

/-- JavaScript `s.slice(a)` for a non-negative index. -/
def jsSliceFromStr (s : String) (a : Nat) : String :=
  (s.data.drop a).asString

/-- JavaScript `arr.slice(a, b)` for non-negative indices. -/
def jsArraySlice {α : Type} (l : List α) (a b : Nat) : List α :=
  (l.take b).drop a

/-- `stripHexPrefix` of ethereumjs-util: drop a leading `0x` if present. -/
def stripHexPrefix (s : String) : String :=
  if s.data.take 2 = ['0', 'x'] then (s.data.drop 2).asString else s

/-- A position inside a source file: 1-based line, 0-based column. -/
structure SourcePos where
  line : Nat
  column : Nat
deriving DecidableEq, Repr

/-- The `location` payload of a source-map entry. -/
structure SourceLocation where
  start : SourcePos
  «end» : SourcePos
deriving DecidableEq, Repr

/-- One entry of the `pcToSourceRange` table produced by `parseSourceMap`. -/
structure SourceRange where
  fileName : String
  location : SourceLocation
deriving DecidableEq, Repr

/-- Opening escape sequence emitted by `chalk.blueBright`. -/
def hlOpen : String := "\x1b[94m"

/-- Closing escape sequence emitted by `chalk.blueBright`. -/
def hlClose : String := "\x1b[39m"

/-- The concrete highlighter used by the source, `chalk.blueBright`:
wraps a slice of text in ANSI colour escape sequences. -/
def chalkBlueBright (s : String) : String := hlOpen ++ s ++ hlClose

/-- The `sourceLine` location label computed inside `getSource`:
`<file>:<line>[<startCol>-<endCol>]` when the range is on one line and
`<file>:<startLine>[<startCol>]-<endLine>[<endCol>]` otherwise. -/
def sourceLabel (offset : SourceRange) : String :=
  let f := offset.fileName
  let sl := offset.location.start.line
  let sc := offset.location.start.column
  let el := offset.location.«end».line
  let ec := offset.location.«end».column
  if sl = el then
    f ++ ":" ++ Nat.repr sl ++ "[" ++ Nat.repr sc ++ "-" ++ Nat.repr ec ++ "]"
  else
    f ++ ":" ++ Nat.repr sl ++ "[" ++ Nat.repr sc ++ "]-" ++ Nat.repr el ++ "[" ++ Nat.repr ec ++ "]"

/-- The body of the `lines.reduce` callback in `getSource`: contribution
of the line with index `i` out of `count` selected lines. -/
def excerptPiece (color : String → String) (startCol endCol : Nat)
    (count i : Nat) (line : String) : String :=
  let first := i = 0
  let last := i = count - 1
  if first ∧ last then
    jsSliceStr line 0 startCol ++ color (jsSliceStr line startCol endCol) ++
      jsSliceFromStr line endCol
  else if first then
    jsSliceStr line 0 startCol ++ color (jsSliceFromStr line startCol)
  else if last then
    color (jsSliceStr line 0 endCol) ++ jsSliceFromStr line endCol
  else
    color line

/-- Result record of `getSource`. -/
structure SourceResult where
  source : String
  sourceLine : String
deriving DecidableEq, Repr

/-- The `getSource(offset, sourceFile)` function of the source, with the
highlighter (`chalk.blueBright` in the code, `color` here) made an
explicit parameter as the spec designates highlighting pluggable.  The
JS `reduce` from `''` with string concatenation is `String.join` of the
per-line pieces. -/
def getSource (color : String → String) (offset : SourceRange)
    (sourceFile : List String) : SourceResult :=
  let lines := jsArraySlice sourceFile (offset.location.start.line - 1)
    offset.location.«end».line
  let startCol := offset.location.start.column
  let endCol := offset.location.«end».column
  { source := String.join ((List.enum lines).map
      (fun p => excerptPiece color startCol endCol lines.length p.1 p.2)),
    sourceLine := sourceLabel offset }

/-- Remove every occurrence of the pattern `m` from `s`; fuel-indexed so
the recursion is structural and evaluates inside the kernel. -/
def removeAllAux (m : List Char) : Nat → List Char → List Char
  | _, [] => []
  | 0, s => s
  | fuel + 1, c :: rest =>
    if m.isPrefixOf (c :: rest) && !m.isEmpty then
      removeAllAux m fuel (List.drop (m.length - 1) rest)
    else
      c :: removeAllAux m fuel rest

/-- Remove every occurrence of the pattern `m` from `s`. -/
def removeAll (m s : List Char) : List Char := removeAllAux m s.length s

/-- Strip the ANSI highlight markers produced by `chalkBlueBright`. -/
def stripMarkers (s : String) : String :=
  (removeAll hlOpen.data (removeAll hlClose.data s.data)).asString

/-- Decidable equality for `Except` results, used to evaluate the
pipeline on concrete inputs. -/
instance {ε α : Type} [DecidableEq ε] [DecidableEq α] : DecidableEq (Except ε α)
  | .error e, .error e' =>
    if h : e = e' then .isTrue (by rw [h]) else .isFalse (by simp [h])
  | .error _, .ok _ => .isFalse (by simp)
  | .ok _, .error _ => .isFalse (by simp)
  | .ok a, .ok a' =>
    if h : a = a' then .isTrue (by rw [h]) else .isFalse (by simp [h])

/-- One raw-or-enriched VM step (`StructLog` of the source).  The `sha`
payload and the lazily-evaluated `show` action are carried opaquely
(presence-only for `show`, a token for `sha`); the source-injection
stage never inspects them. -/
structure StructLog where
  depth : Nat
  error : String
  gas : Nat
  gasCost : Nat
  memory : Option (List String)
  op : String
  pc : Nat
  stack : List String
  storage : List (String × String)
  source : Option String := none
  sourceLine : Option String := none
  desc : Option String := none
  lastDesc : Option String := none
  sha : List (String × String) := []
  «show» : Option Unit := none
deriving DecidableEq, Repr

/-- Raw execution result of `debug_traceTransaction`. -/
structure Trace where
  gas : Nat
  returnValue : String
  structLogs : List StructLog
deriving DecidableEq, Repr

/-- One provenance record of the inversion map. -/
structure InversionItem where
  operation : String
  inputs : List String
deriving DecidableEq, Repr

/-- The inversion map: JS object keyed by string. -/
def InversionMap : Type := List (String × List InversionItem)

/-- The `TraceInfo` provenance index passed to callbacks. -/
structure TraceInfo where
  lastLog : Option StructLog
  inv : InversionMap

/-- Everything a `trace` call can fail with.  `thrown` is an `Error`
raised by the pipeline or a callback; `typeError` is the implicit
JavaScript `TypeError` from reading the named property of `undefined`. -/
inductive TraceError where
  | thrown : String → TraceError
  | typeError : String → TraceError
deriving DecidableEq, Repr

/-- The `TraceOptions` record; async callbacks are modelled as functions
into `Except`. -/
structure TraceOptions where
  constants : Option (List (String × String)) := none
  onTrace : Option (Trace → Except TraceError Unit) := none
  preFilter : Option (StructLog → Bool) := none
  postFilter : Option (StructLog → Bool) := none
  execLog : Option (StructLog → TraceInfo → Except TraceError Unit) := none
  exec : Option (List StructLog → TraceInfo → Except TraceError Unit) := none

/-- Compiled-artifact metadata returned by
`getContractDataByTraceInfoIfExistsAsync`. -/
structure ContractData where
  sourceMap : String
  sourceMapRuntime : String
  sourceCodes : List (String × String)
  sources : List (String × String)
deriving DecidableEq, Repr

/-- A web3 transaction receipt, restricted to the fields `trace` reads. -/
structure TransactionReceipt where
  transactionHash : String
  «to» : String
  contractAddress : JsOpt String
deriving DecidableEq, Repr

/-- `receipt.contractAddress || receipt.to` — the address the resolver
targets. -/
def targetAddress (receipt : TransactionReceipt) : String :=
  jsOr receipt.contractAddress receipt.«to»

/-- `receipt.contractAddress !== null` — the creation classification the
code computes (note: `undefined` also counts as a creation here). -/
def creationFlag (receipt : TransactionReceipt) : Bool :=
  decide (receipt.contractAddress ≠ JsOpt.null)

/-- `isContractCreation ? contractData.sourceMap : contractData.sourceMapRuntime`. -/
def selectSourceMap (isContractCreation : Bool) (cd : ContractData) : String :=
  if isContractCreation then cd.sourceMap else cd.sourceMapRuntime

/-- The `inverted` file-name→lines index: `Object.entries(contractData.sources)`
reduced into an object mapping each source name to
`contractData.sourceCodes[id].split("\n")`.  Reading a missing id throws
the JavaScript `TypeError` for `.split` of `undefined`. -/
def buildInverted (cd : ContractData) :
    Except TraceError (List (String × List String)) :=
  cd.sources.mapM (fun p =>
    match jsGet cd.sourceCodes p.1 with
    | none => .error (.typeError "split")
    | some txt => .ok (p.2, splitLines txt))

/-- The per-call source-resolution products: the `pcToSourceRange` table
and the `inverted` line index. -/
structure Resolved where
  pcToSourceRange : Nat → Option SourceRange
  inverted : List (String × List String)

/-- The external collaborators of the pipeline, as a read-only
environment: bytecode lookup, artifact lookup, source-map decoder, the
RPC trace fetch, and the augmentation collaborator. -/
structure TraceEnv where
  getCode : String → String
  getContractData : String → String → Bool → Option ContractData
  parseSourceMap : List (String × String) → String → String →
    List (String × String) → (Nat → Option SourceRange)
  traceTransaction : String → Trace
  augmentLogs : List StructLog → List (String × String) →
    (List StructLog × TraceInfo)

/-- The source-resolution block at the head of `trace` (lines 107–126 of
the source): pick the target address and creation flag, fetch bytecode,
look up artifact metadata (throwing when absent), select the source map,
decode it, and build the `inverted` index. -/
def resolveSource (env : TraceEnv) (receipt : TransactionReceipt) :
    Except TraceError Resolved :=
  let address := targetAddress receipt
  let isContractCreation := creationFlag receipt
  let bytecode := env.getCode address
  match env.getContractData address bytecode isContractCreation with
  | none =>
    .error (.thrown ("Failed to find contract data for given bytecode at " ++ address))
  | some contractData =>
    let bytecodeHex := stripHexPrefix bytecode
    let sourceMap := selectSourceMap isContractCreation contractData
    let pcToSourceRange := env.parseSourceMap contractData.sourceCodes sourceMap
      bytecodeHex contractData.sources
    match buildInverted contractData with
    | .error e => .error e
    | .ok inverted => .ok { pcToSourceRange := pcToSourceRange, inverted := inverted }

/-- Annotation of one step inside the `filteredLogs.map` callback:
`offset = pcToSourceRange[log.pc]`, `sourceFile = inverted[offset.fileName]`,
then `{...log, ...getSource(offset, sourceFile)}`.  A missing table entry
makes `offset.fileName` a read of `undefined`; a missing file makes
`sourceFile.slice` a read of `undefined` — both JavaScript `TypeError`s. -/
def annotateLog (tbl : Nat → Option SourceRange)
    (inverted : List (String × List String)) (log : StructLog) :
    Except TraceError StructLog :=
  match tbl log.pc with
  | none => .error (.typeError "fileName")
  | some offset =>
    match jsGet inverted offset.fileName with
    | none => .error (.typeError "slice")
    | some sourceFile =>
      let r := getSource chalkBlueBright offset sourceFile
      .ok { log with source := some r.source, sourceLine := some r.sourceLine }

/-- An order-preserving optional filter: `opts.f ? logs.filter(opts.f) : logs`. -/
def filterStage (p : Option (StructLog → Bool)) (logs : List StructLog) :
    List StructLog :=
  match p with
  | some f => logs.filter f
  | none => logs

/-- The `if (pcToSourceRange && inverted)` source-injection stage. -/
def injectStage (resolved : Option Resolved) (logs : List StructLog) :
    Except TraceError (List StructLog) :=
  match resolved with
  | some r => logs.mapM (annotateLog r.pcToSourceRange r.inverted)
  | none => .ok logs

/-- Pre-filter, source injection, post-filter — the middle of the
pipeline (lines 135–149 of the source). -/
def filterInjectFilter (pre post : Option (StructLog → Bool))
    (resolved : Option Resolved) (logs : List StructLog) :
    Except TraceError (List StructLog) :=
  match injectStage resolved (filterStage pre logs) with
  | .error e => .error e
  | .ok mid => .ok (filterStage post mid)

/-- `Promise.all` over the per-step handler results, parameterised by the
completion order of the dispatched tasks: the first task, in completion
order, that rejected determines the joined rejection; when every task in
the order resolved, the join resolves. -/
def promiseAll (tasks : List (Except TraceError Unit)) (order : List Nat) :
    Except TraceError Unit :=
  match order.findSome? (fun i =>
      match tasks.getD i (.ok ()) with
      | .error e => some e
      | .ok _ => none) with
  | some e => .error e
  | none => .ok ()

/-- The `trace(receipt, traceOpts)` closure returned by `buildTracer`.
`hasCollector` records whether an artifact adapter was configured at
construction; `sched` is the completion order of the concurrently
dispatched per-step handler tasks (irrelevant unless `execLog` is set).
The statement order follows the source exactly. -/
def trace (env : TraceEnv) (hasCollector : Bool)
    (receipt : TransactionReceipt) (traceOpts : TraceOptions)
    (sched : List Nat) : Except TraceError (List StructLog) :=
  match (if hasCollector then (resolveSource env receipt).map some
         else Except.ok none) with
  | .error e => .error e
  | .ok resolved =>
    let t := env.traceTransaction receipt.transactionHash
    match (match traceOpts.onTrace with
           | some f => f t
           | none => Except.ok ()) with
    | .error e => .error e
    | .ok _ =>
      let augmented := env.augmentLogs t.structLogs (traceOpts.constants.getD [])
      let info := augmented.2
      match filterInjectFilter traceOpts.preFilter traceOpts.postFilter resolved
          augmented.1 with
      | .error e => .error e
      | .ok postFilteredLogs =>
        match (match traceOpts.execLog with
               | some f => promiseAll (postFilteredLogs.map (fun log => f log info)) sched
               | none => Except.ok ()) with
        | .error e => .error e
        | .ok _ =>
          match (match traceOpts.exec with
                 | some f => f postFilteredLogs info
                 | none => Except.ok ()) with
          | .error e => .error e
          | .ok _ => .ok postFilteredLogs

/-- The raw step sequence the RPC returns for a receipt. -/
def rawSteps (env : TraceEnv) (receipt : TransactionReceipt) : List StructLog :=
  (env.traceTransaction receipt.transactionHash).structLogs

/-- The augmented step sequence entering the filter stages. -/
def augSteps (env : TraceEnv) (receipt : TransactionReceipt)
    (opts : TraceOptions) : List StructLog :=
  (env.augmentLogs (rawSteps env receipt) (opts.constants.getD [])).1

/-- The provenance index handed to callbacks. -/
def augInfo (env : TraceEnv) (receipt : TransactionReceipt)
    (opts : TraceOptions) : TraceInfo :=
  (env.augmentLogs (rawSteps env receipt) (opts.constants.getD [])).2

/-- The steps surviving both filters when no source table intervenes. -/
def finalSteps (env : TraceEnv) (receipt : TransactionReceipt)
    (opts : TraceOptions) : List StructLog :=
  filterStage opts.postFilter (filterStage opts.preFilter (augSteps env receipt opts))

/-- The per-step handler results dispatched by `Promise.all`: one
invocation per surviving step, passing the step and the provenance
index. -/
def dispatchResults (env : TraceEnv) (receipt : TransactionReceipt)
    (opts : TraceOptions)
    (f : StructLog → TraceInfo → Except TraceError Unit) :
    List (Except TraceError Unit) :=
  (finalSteps env receipt opts).map (fun log => f log (augInfo env receipt opts))

/-- The raw fields and earlier-enrichment fields of a step: the step
with the source-injection fields reset.  Two steps with the same core
are the same step up to source annotation. -/
def stepCore (s : StructLog) : StructLog :=
  { s with source := none, sourceLine := none }

/-- "The source-injection stage removes and reorders no step": the stage
succeeds and each output position holds the input step of the same
position, unchanged except for the source-annotation fields. -/
def noRemoveReorder (resolved : Option Resolved) (logs : List StructLog) : Prop :=
  ∃ l', injectStage resolved logs = .ok l' ∧ l'.map stepCore = logs.map stepCore

/-! ### Concrete fixtures used by the closed theorems -/

/-- A raw step at program counter `p`. -/
def mkStep (p : Nat) : StructLog :=
  { depth := 1, error := "", gas := 100, gasCost := 3, memory := none,
    op := "PUSH1", pc := p, stack := [], storage := [] }

/-- Range (1,0)-(1,2) in file "A.sol". -/
def offA : SourceRange :=
  { fileName := "A.sol",
    location := { start := { line := 1, column := 0 },
                  «end» := { line := 1, column := 2 } } }

/-- A pc→source table resolving only program counter 0. -/
def tblA : Nat → Option SourceRange := fun p => if p = 0 then some offA else none

/-- A line index holding the two lines of "A.sol". -/
def invA : List (String × List String) := [("A.sol", ["ab", "cd"])]

/-- The resolution products pairing `tblA` with `invA`. -/
def resolvedA : Resolved := { pcToSourceRange := tblA, inverted := invA }

/-- The step at pc 0 after source injection against `tblA`/`invA`. -/
def annStep0 : StructLog :=
  { mkStep 0 with source := some (hlOpen ++ "ab" ++ hlClose),
                  sourceLine := some "A.sol:1[0-2]" }

/-- Concrete artifact metadata with distinct creation and runtime maps. -/
def cdMaps : ContractData :=
  { sourceMap := "creationMap", sourceMapRuntime := "runtimeMap",
    sourceCodes := [("0", "ab\ncd")], sources := [("0", "A.sol")] }

/-- Concrete creation receipt: created address "0xC", destination "0xT". -/
def receiptCreate : TransactionReceipt :=
  { transactionHash := "0xh1", «to» := "0xT", contractAddress := JsOpt.val "0xC" }

/-- Concrete ordinary-call receipt: `contractAddress` is `null`. -/
def receiptCall : TransactionReceipt :=
  { transactionHash := "0xh2", «to» := "0xT", contractAddress := JsOpt.null }

/-- Concrete receipt with `contractAddress === undefined`. -/
def receiptUndef : TransactionReceipt :=
  { transactionHash := "0xh3", «to» := "0xT", contractAddress := JsOpt.undef }

/-- A concrete environment: a two-step trace (pcs 0 and 7), artifact
metadata always found, a source map resolving only pc 0, and an
augmentation collaborator that passes steps through unchanged. -/
def envA : TraceEnv :=
  { getCode := fun _ => "0x6001",
    getContractData := fun _ _ _ => some cdMaps,
    parseSourceMap := fun _ _ _ _ => tblA,
    traceTransaction := fun _ =>
      { gas := 21000, returnValue := "", structLogs := [mkStep 0, mkStep 7] },
    augmentLogs := fun logs _ => (logs, { lastLog := none, inv := [] }) }

/-- Like `envA` but artifact metadata exists only for address "0xC" and
the trace has the single resolvable step at pc 0. -/
def envSel : TraceEnv :=
  { envA with
    getContractData := fun addr _ _ => if addr = "0xC" then some cdMaps else none,
    traceTransaction := fun _ =>
      { gas := 21000, returnValue := "", structLogs := [mkStep 0] } }

/-- A per-step handler that rejects exactly on the step at pc 7. -/
def fBoom : StructLog → TraceInfo → Except TraceError Unit :=
  fun log _ => if log.pc = 7 then .error (.thrown "boom") else .ok ()

/-- Options configuring only the failing per-step handler. -/
def optsBoom : TraceOptions := { execLog := some fBoom }

/-- A pre-filter keeping every step. -/
def p1Cex : StructLog → Bool := fun _ => true

/-- A post-filter keeping exactly the steps with no source annotation. -/
def p2Cex : StructLog → Bool := fun log => log.source.isNone

/-- A pre-filter keeping exactly the steps with no source annotation. -/
def p3Cex : StructLog → Bool := fun log => log.source.isNone

/-- A post-filter keeping every step. -/
def p4Cex : StructLog → Bool := fun _ => true

/-- A concrete multi-line range used to exercise the Excerpter. -/
def offCex : SourceRange :=
  { fileName := "A",
    location := { start := { line := 1, column := 0 },
                  «end» := { line := 2, column := 2 } } }

/-- Single-line range (10,4)-(10,9) on file "A". -/
def offSingle : SourceRange :=
  { fileName := "A",
    location := { start := { line := 10, column := 4 },
                  «end» := { line := 10, column := 9 } } }

/-- Multi-line range (12,2)-(14,5) on file "A". -/
def offMulti : SourceRange :=
  { fileName := "A",
    location := { start := { line := 12, column := 2 },
                  «end» := { line := 14, column := 5 } } }

/-! ### Helper lemmas -/

theorem foldl_append_init (l : List String) :
    ∀ x : String, l.foldl (· ++ ·) x = x ++ l.foldl (· ++ ·) "" := by
  induction l with
  | nil => intro x; simp [List.foldl]
  | cons a t ih =>
    intro x
    simp only [List.foldl]
    rw [ih (x ++ a), ih ("" ++ a), String.empty_append, String.append_assoc]

theorem stringJoin_cons (a : String) (l : List String) :
    String.join (a :: l) = a ++ String.join l := by
  show List.foldl (· ++ ·) "" (a :: l) = a ++ List.foldl (· ++ ·) "" l
  simp only [List.foldl]
  rw [foldl_append_init l ("" ++ a), String.empty_append]

theorem asString_append (a b : List Char) :
    a.asString ++ b.asString = (a ++ b).asString := rfl

/-- Splitting a line at any column and reassembling the two halves is the
identity: `line.slice(0, c) + line.slice(c) == line` in JavaScript. -/
theorem jsSlice_split_join (s : String) (c : Nat) :
    jsSliceStr s 0 c ++ jsSliceFromStr s c = s := by
  cases s with
  | mk data =>
    show ((List.take c data).drop 0).asString ++ (List.drop c data).asString = _
    rw [List.drop_zero, asString_append, List.take_append_drop]
    rfl

/-- With the identity highlighter, every line of a multi-line excerpt
(at least two selected lines) contributes itself unchanged. -/
theorem excerptPiece_id (sc ec count i : Nat) (line : String)
    (h2 : 2 ≤ count) (hi : i < count) :
    excerptPiece (fun s => s) sc ec count i line = line := by
  have h1 : count - 1 ≠ 0 := by omega
  by_cases h0 : i = 0
  · subst h0
    simp only [excerptPiece]
    rw [if_neg (fun hcl => h1 hcl.2.symm), if_pos trivial]
    exact jsSlice_split_join line sc
  · by_cases hl : i = count - 1
    · simp only [excerptPiece]
      rw [if_neg (fun hcl => h0 hcl.1), if_neg h0, if_pos hl]
      exact jsSlice_split_join line ec
    · simp only [excerptPiece]
      rw [if_neg (fun hcl => h0 hcl.1), if_neg h0, if_neg hl]

/-- Joining the per-line pieces of an index-aware map that fixes every
line is joining the lines themselves. -/
theorem join_enumFrom_eq (g : Nat → String → String) :
    ∀ (lines : List String) (k : Nat),
      (∀ i l, (i, l) ∈ List.enumFrom k lines → g i l = l) →
      String.join ((List.enumFrom k lines).map (fun p => g p.1 p.2)) =
        String.join lines
  | [], _, _ => rfl
  | x :: xs, k, h => by
    have hx : g k x = x := h k x (by simp [List.enumFrom])
    have ih := join_enumFrom_eq g xs (k + 1)
      (fun i l hm => h i l (by simp [List.enumFrom, hm]))
    show String.join (g k x :: (List.enumFrom (k + 1) xs).map (fun p => g p.1 p.2)) =
      String.join (x :: xs)
    rw [stringJoin_cons, stringJoin_cons, hx, ih]

theorem enumFrom_fst_lt {α : Type} :
    ∀ (l : List α) (k i : Nat) (x : α),
      (i, x) ∈ List.enumFrom k l → i < k + l.length := by
  intro l
  induction l with
  | nil => intro k i x h; simp [List.enumFrom] at h
  | cons a t ih =>
    intro k i x h
    simp only [List.enumFrom, List.mem_cons] at h
    cases h with
    | inl h => simp [Prod.ext_iff] at h; simp [List.length_cons]; omega
    | inr h => have := ih (k + 1) i x h; simp; omega

/-! ### Claim C2 -/

/-- Claim C2 (amended): for a multi-line range (start line strictly below
end line, both within the file), the excerpt computed with the identity
highlighter — i.e. the excerpt with all highlight decoration stripped —
is the original file lines L1..L2 concatenated WITHOUT any separator:
the `reduce` in `getSource` inserts no line breaks between lines. -/
theorem excerpt_strip_multiline (off : SourceRange) (file : List String)
    (h0 : 1 ≤ off.location.start.line)
    (h1 : off.location.start.line < off.location.«end».line)
    (h2 : off.location.«end».line ≤ file.length) :
    (getSource (fun s => s) off file).source =
      String.join (jsArraySlice file (off.location.start.line - 1)
        off.location.«end».line) := by
  simp only [getSource]
  have htake : (file.take off.location.«end».line).length = off.location.«end».line := by
    rw [List.length_take]; omega
  have hlen : 2 ≤ (jsArraySlice file (off.location.start.line - 1)
      off.location.«end».line).length := by
    simp only [jsArraySlice, List.length_drop, htake]
    omega
  show String.join ((List.enumFrom 0 _).map _) = _
  apply join_enumFrom_eq
  intro i l hm
  exact excerptPiece_id _ _ _ _ _ hlen
    (by simpa using enumFrom_fst_lt _ 0 i l hm)

/-- Claim C2 is false as stated: on the two-line file ["ab", "cd"] with
the multi-line range (1,0)-(2,2), stripping the `chalk.blueBright`
highlight markers from the excerpt yields "abcd" — the original lines
concatenated without a separator — which differs from the original lines
L1..L2 joined with line breaks, "ab\ncd". -/
theorem excerpt_strip_not_linebreak_cex :
    offCex.location.start.line < offCex.location.«end».line ∧
    stripMarkers (getSource chalkBlueBright offCex ["ab", "cd"]).source = "abcd" ∧
    stripMarkers (getSource chalkBlueBright offCex ["ab", "cd"]).source ≠
      String.intercalate "\n" (jsArraySlice ["ab", "cd"]
        (offCex.location.start.line - 1) offCex.location.«end».line) := by
  refine ⟨by decide, by decide, by decide⟩

/-- Witness for the amended claim C2 at the concrete range and file of
the counterexample. -/
theorem excerpt_strip_multiline_witness :
    (getSource (fun s => s) offCex ["ab", "cd"]).source =
      String.join (jsArraySlice ["ab", "cd"] (offCex.location.start.line - 1)
        offCex.location.«end».line) :=
  excerpt_strip_multiline offCex ["ab", "cd"] (by decide) (by decide) (by decide)

/-! ### Claim C6 -/

/-- Claim C6: the location label the Excerpter attaches is
`<file>:<line>[<startCol>-<endCol>]` when the range starts and ends on
the same line and `<file>:<startLine>[<startCol>]-<endLine>[<endCol>]`
otherwise; in particular on file "A" the range (10,4)-(10,9) yields
"A:10[4-9]" and the range (12,2)-(14,5) yields "A:12[2]-14[5]". -/
theorem source_label_format :
    (∀ (color : String → String) (off : SourceRange) (file : List String),
      (getSource color off file).sourceLine = sourceLabel off) ∧
    (∀ off : SourceRange, off.location.start.line = off.location.«end».line →
      sourceLabel off = off.fileName ++ ":" ++ Nat.repr off.location.start.line ++
        "[" ++ Nat.repr off.location.start.column ++ "-" ++
        Nat.repr off.location.«end».column ++ "]") ∧
    (∀ off : SourceRange, off.location.start.line ≠ off.location.«end».line →
      sourceLabel off = off.fileName ++ ":" ++ Nat.repr off.location.start.line ++
        "[" ++ Nat.repr off.location.start.column ++ "]-" ++
        Nat.repr off.location.«end».line ++ "[" ++
        Nat.repr off.location.«end».column ++ "]") ∧
    sourceLabel offSingle = "A:10[4-9]" ∧
    sourceLabel offMulti = "A:12[2]-14[5]" := by
  refine ⟨fun _ _ _ => rfl, fun off h => ?_, fun off h => ?_, by decide, by decide⟩
  · simp [sourceLabel, h]
  · simp [sourceLabel, h]

/-- Witness for claim C6: the single-line format instantiated at the
range (10,4)-(10,9) of file "A". -/
theorem source_label_format_witness :
    sourceLabel offSingle =
      "A" ++ ":" ++ Nat.repr 10 ++ "[" ++ Nat.repr 4 ++ "-" ++ Nat.repr 9 ++ "]" :=
  source_label_format.2.1 offSingle rfl

/-! ### Claim C5 -/

/-- Claim C5: the resolver targets the created-contract address for a
creation receipt (a receipt actually carrying a created address) and the
destination address otherwise, and the chosen address is the only one the
on-chain bytecode lookup consults: replacing `getCode` by any function
that agrees with it at the target address leaves resolution unchanged. -/
theorem trace_address_selection :
    (∀ (receipt : TransactionReceipt) (a : String),
      receipt.contractAddress = JsOpt.val a → a ≠ "" →
      targetAddress receipt = a) ∧
    (∀ receipt : TransactionReceipt,
      receipt.contractAddress = JsOpt.null →
      targetAddress receipt = receipt.«to») ∧
    (∀ (env : TraceEnv) (g : String → String) (receipt : TransactionReceipt),
      g (targetAddress receipt) = env.getCode (targetAddress receipt) →
      resolveSource { env with getCode := g } receipt = resolveSource env receipt) := by
  refine ⟨?_, ?_, ?_⟩
  · intro receipt a h ha
    simp [targetAddress, jsOr, h, ha]
  · intro receipt h
    simp [targetAddress, jsOr, h]
  · intro env g receipt h
    simp only [resolveSource, h]

/-- Witness for claim C5: the creation receipt targets "0xC", the
ordinary call receipt targets its destination "0xT". -/
theorem trace_address_selection_witness :
    targetAddress receiptCreate = "0xC" ∧ targetAddress receiptCall = "0xT" :=
  ⟨trace_address_selection.1 receiptCreate "0xC" rfl (by decide),
   trace_address_selection.2.1 receiptCall rfl⟩

/-! ### Claim C10 -/

/-- Claim C10: when `contractAddress` is `undefined` rather than `null`,
the target of the bytecode lookup is the destination address (`||` treats
`undefined` as falsy) while the creation test `contractAddress !== null`
still classifies the transaction as a contract creation, so the
construction-time source map is selected for the destination address. -/
theorem undefined_contract_address_behavior
    (receipt : TransactionReceipt) (cd : ContractData)
    (h : receipt.contractAddress = JsOpt.undef) :
    targetAddress receipt = receipt.«to» ∧
    creationFlag receipt = true ∧
    selectSourceMap (creationFlag receipt) cd = cd.sourceMap := by
  refine ⟨?_, ?_, ?_⟩
  · simp [targetAddress, jsOr, h]
  · simp [creationFlag, h]
  · simp [selectSourceMap, creationFlag, h]

/-- Witness for claim C10 at the concrete `undefined` receipt. -/
theorem undefined_contract_address_behavior_witness :
    targetAddress receiptUndef = receiptUndef.«to» ∧
    creationFlag receiptUndef = true ∧
    selectSourceMap (creationFlag receiptUndef) cdMaps = cdMaps.sourceMap :=
  undefined_contract_address_behavior receiptUndef cdMaps rfl

/-! ### The pipeline with no collector configured -/

/-- With no artifact adapter configured and no raw-trace observer, the
call reduces to filtering the augmented steps and dispatching the
handlers: the source-injection stage is skipped. -/
theorem trace_no_collector (env : TraceEnv) (receipt : TransactionReceipt)
    (opts : TraceOptions) (sched : List Nat) (hOn : opts.onTrace = none) :
    trace env false receipt opts sched =
      match (match opts.execLog with
             | some f => promiseAll ((finalSteps env receipt opts).map
                 (fun log => f log (augInfo env receipt opts))) sched
             | none => Except.ok ()) with
      | .error e => .error e
      | .ok _ =>
        match (match opts.exec with
               | some f => f (finalSteps env receipt opts) (augInfo env receipt opts)
               | none => Except.ok ()) with
        | .error e => .error e
        | .ok _ => .ok (finalSteps env receipt opts) := by
  simp [trace, hOn, filterInjectFilter, injectStage, finalSteps, augSteps,
    augInfo, rawSteps]

/-! ### Claim C3 -/

/-- Claim C3: with no pre-filter, no post-filter, no source resolution
and no callbacks configured, and an augmentation collaborator preserving
step count and order (same per-index program counters), `trace` succeeds
and returns exactly the N augmented steps, in the original VM execution
order. -/
theorem trace_no_filters_identity (env : TraceEnv)
    (receipt : TransactionReceipt) (opts : TraceOptions) (sched : List Nat)
    (hPre : opts.preFilter = none) (hPost : opts.postFilter = none)
    (hOn : opts.onTrace = none) (hLog : opts.execLog = none)
    (hEx : opts.exec = none)
    (hAug : (augSteps env receipt opts).map (fun l => l.pc) =
      (rawSteps env receipt).map (fun l => l.pc)) :
    trace env false receipt opts sched = .ok (augSteps env receipt opts) ∧
    (augSteps env receipt opts).length = (rawSteps env receipt).length ∧
    (augSteps env receipt opts).map (fun l => l.pc) =
      (rawSteps env receipt).map (fun l => l.pc) := by
  refine ⟨?_, ?_, hAug⟩
  · rw [trace_no_collector env receipt opts sched hOn]
    simp [hLog, hEx, finalSteps, filterStage, hPre, hPost]
  · have := congrArg List.length hAug
    simpa using this

/-- Witness for claim C3: on the concrete two-step environment with the
empty options record, `trace` returns both steps in order. -/
theorem trace_no_filters_identity_witness :
    trace envA false receiptCreate {} [] = .ok (augSteps envA receiptCreate {}) ∧
    (augSteps envA receiptCreate {}).length = (rawSteps envA receiptCreate).length ∧
    (augSteps envA receiptCreate {}).map (fun l => l.pc) =
      (rawSteps envA receiptCreate).map (fun l => l.pc) :=
  trace_no_filters_identity envA receiptCreate {} [] rfl rfl rfl rfl rfl (by decide)

/-! ### Claim C4 -/

/-- Joining the per-step handler tasks in any completion order: when some
task rejected, the join rejects with one of the rejected tasks' errors,
whatever the completion order. -/
theorem promiseAll_perm_error (tasks : List (Except TraceError Unit))
    (order : List Nat)
    (hperm : order.Perm (List.range tasks.length))
    (hfail : ∃ e, Except.error e ∈ tasks) :
    ∃ e, promiseAll tasks order = .error e ∧ Except.error e ∈ tasks := by
  obtain ⟨e, he⟩ := hfail
  obtain ⟨n, hn⟩ := List.mem_iff_get.mp he
  have hg : (match tasks.getD n.1 (Except.ok ()) with
      | Except.error e => some e
      | Except.ok _ => none) = some e := by
    have hd : tasks.getD n.1 (Except.ok ()) = Except.error e := by
      rw [List.getD_eq_getElem tasks _ n.2]
      exact hn
    rw [hd]
  have hmem : n.1 ∈ order := (hperm.mem_iff).mpr (List.mem_range.mpr n.2)
  cases hfind : order.findSome? (fun i => match tasks.getD i (Except.ok ()) with
      | .error e => some e
      | .ok _ => none) with
  | none =>
    exfalso
    have hnone := (List.findSome?_eq_none_iff.mp hfind) n.1 hmem
    rw [hg] at hnone
    exact Option.noConfusion hnone
  | some e' =>
    obtain ⟨i, _, hi⟩ := List.exists_of_findSome?_eq_some hfind
    have hlt : i < tasks.length := by
      by_contra hge
      have hdef : tasks.getD i (Except.ok ()) = Except.ok () :=
        List.getD_eq_default tasks _ (by omega)
      rw [hdef] at hi
      exact Option.noConfusion hi
    have htask : tasks.getD i (Except.ok ()) = Except.error e' := by
      cases h : tasks.getD i (Except.ok ()) with
      | error x => rw [h] at hi; simp at hi; rw [hi]
      | ok u => rw [h] at hi; exact Option.noConfusion hi
    refine ⟨e', by unfold promiseAll; rw [hfind], ?_⟩
    rw [List.getD_eq_getElem tasks _ hlt] at htask
    exact htask ▸ List.getElem_mem hlt

/-- Claim C4: when a per-step handler is configured the dispatch stage
evaluates it once per step surviving the post-filter with the step and
the provenance index (the `dispatchResults` list), and whenever any of
those invocations fails, the whole call fails with one of the underlying
failures — for every completion order of the concurrently dispatched
tasks. -/
theorem trace_execLog_fail_fast (env : TraceEnv)
    (receipt : TransactionReceipt) (opts : TraceOptions)
    (f : StructLog → TraceInfo → Except TraceError Unit) (sched : List Nat)
    (hOn : opts.onTrace = none) (hLog : opts.execLog = some f)
    (hperm : sched.Perm (List.range (dispatchResults env receipt opts f).length))
    (hfail : ∃ e, Except.error e ∈ dispatchResults env receipt opts f) :
    ∃ e, trace env false receipt opts sched = .error e ∧
      Except.error e ∈ dispatchResults env receipt opts f := by
  obtain ⟨e, hpa, hmem⟩ := promiseAll_perm_error _ sched hperm hfail
  refine ⟨e, ?_, hmem⟩
  rw [trace_no_collector env receipt opts sched hOn]
  simp only [hLog]
  have hd : (finalSteps env receipt opts).map
      (fun log => f log (augInfo env receipt opts)) =
      dispatchResults env receipt opts f := rfl
  rw [hd, hpa]

/-- Witness for claim C4: handler failing on the step at pc 7, completion
order [1, 0] — the call rejects with that failure. -/
theorem trace_execLog_fail_fast_witness :
    ∃ e, trace envA false receiptCreate optsBoom [1, 0] = .error e ∧
      Except.error e ∈ dispatchResults envA receiptCreate optsBoom fBoom :=
  trace_execLog_fail_fast envA receiptCreate optsBoom fBoom [1, 0] rfl rfl
    (by decide) ⟨.thrown "boom", by decide⟩

/-! ### Claim C1 -/

/-- Claim C1 fails on the code: with source resolution configured and a
trace containing a step at pc 7 that has no entry in the pc→source-range
table, `trace` neither skips the step nor fails cleanly — the lookup
`pcToSourceRange[log.pc]` yields `undefined` and the subsequent
`offset.fileName` access is the implicit JavaScript `TypeError` the spec
forbids.  This theorem evaluates the pipeline at that failing input. -/
theorem trace_unresolved_pc_crash :
    trace envA true receiptCreate {} [] = .error (.typeError "fileName") := by
  decide

/-! ### Claim C8 -/

/-- Claim C8: when the artifact lookup finds no contract data for the
target address, the call fails with the error whose message carries the
queried address.  The tracer's construction-time state (`env`,
`hasCollector`) is a read-only input of the pure function `trace`, so the
failure is isolated to this call. -/
theorem trace_contract_data_not_found (env : TraceEnv)
    (receipt : TransactionReceipt) (opts : TraceOptions) (sched : List Nat)
    (h : env.getContractData (targetAddress receipt)
      (env.getCode (targetAddress receipt)) (creationFlag receipt) = none) :
    trace env true receipt opts sched =
      .error (.thrown ("Failed to find contract data for given bytecode at " ++
        targetAddress receipt)) := by
  simp [trace, resolveSource, h, Except.map]

/-- Witness for claim C8: on an environment knowing only address "0xC",
the call for a receipt targeting "0xT" fails with the
address-carrying error, while a later call on the same tracer state for
a receipt targeting "0xC" still succeeds. -/
theorem trace_contract_data_not_found_witness :
    trace envSel true receiptCall {} [] =
      .error (.thrown ("Failed to find contract data for given bytecode at " ++
        targetAddress receiptCall)) ∧
    trace envSel true receiptCreate {} [] = .ok [annStep0] :=
  ⟨trace_contract_data_not_found envSel receiptCall {} [] (by decide),
   by decide⟩

/-! ### Claim C9 -/

/-- Claim C9: a step the source-injection stage annotates is a new step
value in which only the `source` excerpt and `sourceLine` label are set;
every raw field (depth, error, gas, gasCost, memory, op, pc, stack,
storage) and every earlier enrichment field (desc, lastDesc, sha, show)
is unchanged.  The input step is a pure value and is not mutated. -/
theorem annotate_only_adds_source_fields (tbl : Nat → Option SourceRange)
    (inverted : List (String × List String)) (log log' : StructLog)
    (h : annotateLog tbl inverted log = .ok log') :
    log'.depth = log.depth ∧ log'.error = log.error ∧ log'.gas = log.gas ∧
    log'.gasCost = log.gasCost ∧ log'.memory = log.memory ∧
    log'.op = log.op ∧ log'.pc = log.pc ∧ log'.stack = log.stack ∧
    log'.storage = log.storage ∧ log'.desc = log.desc ∧
    log'.lastDesc = log.lastDesc ∧ log'.sha = log.sha ∧
    log'.«show» = log.«show» ∧
    (∃ off file, tbl log.pc = some off ∧
      jsGet inverted off.fileName = some file ∧
      log'.source = some ((getSource chalkBlueBright off file).source) ∧
      log'.sourceLine = some ((getSource chalkBlueBright off file).sourceLine)) := by
  unfold annotateLog at h
  split at h
  next => exact absurd h (by simp)
  next off htbl =>
    split at h
    next => exact absurd h (by simp)
    next file hfile =>
      cases h
      exact ⟨rfl, rfl, rfl, rfl, rfl, rfl, rfl, rfl, rfl, rfl, rfl, rfl, rfl,
        off, file, htbl, hfile, rfl, rfl⟩

/-- Witness for claim C9: annotating the concrete step at pc 0 against
`tblA`/`invA` yields `annStep0`, which only gains the two source
fields. -/
theorem annotate_only_adds_source_fields_witness :
    annStep0.depth = (mkStep 0).depth ∧ annStep0.error = (mkStep 0).error ∧
    annStep0.gas = (mkStep 0).gas ∧ annStep0.gasCost = (mkStep 0).gasCost ∧
    annStep0.memory = (mkStep 0).memory ∧ annStep0.op = (mkStep 0).op ∧
    annStep0.pc = (mkStep 0).pc ∧ annStep0.stack = (mkStep 0).stack ∧
    annStep0.storage = (mkStep 0).storage ∧ annStep0.desc = (mkStep 0).desc ∧
    annStep0.lastDesc = (mkStep 0).lastDesc ∧ annStep0.sha = (mkStep 0).sha ∧
    annStep0.«show» = (mkStep 0).«show» ∧
    (∃ off file, tblA (mkStep 0).pc = some off ∧
      jsGet invA off.fileName = some file ∧
      annStep0.source = some ((getSource chalkBlueBright off file).source) ∧
      annStep0.sourceLine = some ((getSource chalkBlueBright off file).sourceLine)) :=
  annotate_only_adds_source_fields tblA invA (mkStep 0) annStep0 (by decide)

/-! ### Claim C7 -/

/-- Claim C7 is false as stated: with an active source table, the
source-injection stage removes and reorders no step (it only annotates
in place — `noRemoveReorder` holds), yet pre-filter `p1Cex` followed by
post-filter `p2Cex` gives a different final sequence than the single
filter "p1Cex AND p2Cex", because the post-filter observes the annotated
steps: here the post-filter rejects exactly the annotated step, so the
left side is empty while the right side keeps the (annotated) step.
The failure does not depend on where the combined filter is placed: the
last two conjuncts show the combined filter applied in the post position
also disagrees, with a pre-filter sensitive to the annotation. -/
theorem filter_compose_cex :
    noRemoveReorder (some resolvedA) (filterStage (some p1Cex) [mkStep 0]) ∧
    filterInjectFilter (some p1Cex) (some p2Cex) (some resolvedA) [mkStep 0] ≠
      filterInjectFilter (some (fun log => p1Cex log && p2Cex log)) none
        (some resolvedA) [mkStep 0] ∧
    noRemoveReorder (some resolvedA) (filterStage (some p3Cex) [mkStep 0]) ∧
    filterInjectFilter (some p3Cex) (some p4Cex) (some resolvedA) [mkStep 0] ≠
      filterInjectFilter none (some (fun log => p3Cex log && p4Cex log))
        (some resolvedA) [mkStep 0] := by
  refine ⟨⟨[annStep0], by decide, by decide⟩, by decide,
    ⟨[annStep0], by decide, by decide⟩, by decide⟩

/-- Claim C7 (amended): pre-filter P1 followed by post-filter P2 yields
the same final sequence as the single filter "P1 AND P2" whenever no
source table is configured, so the intervening source-injection stage is
skipped and both filters observe the same step values. -/
theorem filter_compose_no_inject (P1 P2 : StructLog → Bool)
    (logs : List StructLog) :
    filterInjectFilter (some P1) (some P2) none logs =
      filterInjectFilter (some (fun log => P1 log && P2 log)) none none logs := by
  simp only [filterInjectFilter, injectStage, filterStage, List.filter_filter]
  congr 1
  exact List.filter_congr (fun a _ => Bool.and_comm (P2 a) (P1 a))

end Saddle
